import Mathlib

/-!
Verification of the course-catalog record store and request handlers of
`src/app.py` (a small Flask application persisting courses in a JSON file).

The persisted file is modelled by `FileState`: it is absent, or present but
not valid JSON, or present and holding a list of course records.  Reading a
malformed file raises `json.JSONDecodeError` in the source; here `load_courses`
returns `Except.error ParseError.parseError` and every operation that calls it
propagates that error, exactly as an uncaught Python exception would.

Form data for `POST /add` is modelled by `Form`: each field of
`request.form` is `none` when absent from the submission and `some s` when
submitted with value `s`.  Python's `request.form.get(key)` is the `Option`
itself, `request.form.get(key, default)` is `Option.getD`, and the truthiness
test `if not value` is `falsy` (true on `None` and on the empty string).
-/

namespace Catalog

/-- A course record, with the nine fields built by `add_course` in
`src/app.py` (lines 118-128). -/
structure Course where
  name : String
  code : String
  instructor : String
  semester : String
  schedule : String
  classroom : String
  prerequisites : String
  grading : String
  description : String
deriving Repr, DecidableEq

/-- The state of the persisted file `course_catalog.json`. -/
inductive FileState where
  | absent
  | malformed
  | wellFormed (courses : List Course)
deriving Repr, DecidableEq

/-- The failure raised when the file exists but does not parse
(`json.load` raising `JSONDecodeError`, uncaught in `src/app.py`). -/
inductive ParseError where
  | parseError
deriving Repr, DecidableEq

/-- `load_courses` (src/app.py lines 44-49): empty list when the file does
not exist, otherwise parse the file; a malformed file raises. -/
def load_courses : FileState → Except ParseError (List Course)
  | .absent => .ok []
  | .malformed => .error .parseError
  | .wellFormed courses => .ok courses

/-- `save_courses` (src/app.py lines 53-58): load the existing courses,
append the new record, write the whole list back. -/
def save_courses (data : Course) (fs : FileState) : Except ParseError FileState :=
  match load_courses fs with
  | .error e => .error e
  | .ok courses => .ok (.wellFormed (courses ++ [data]))

/-- The linear scan `next((course for course in courses if course['code'] == code), None)`
used by `course_details` (line 81) and `remove_course` (line 144). -/
def find (code : String) (courses : List Course) : Option Course :=
  courses.find? (fun course => course.code == code)

/-- `course_details` (src/app.py lines 77-87), reduced to its store effect:
load the courses and look the code up; `some` renders the detail page,
`none` flashes a not-found error and redirects. -/
def course_details (code : String) (fs : FileState) : Except ParseError (Option Course) :=
  match load_courses fs with
  | .error e => .error e
  | .ok courses => .ok (find code courses)

/-- `remove_course` (src/app.py lines 140-156): load, look the code up;
when found, write back the list filtered of EVERY record with that code and
report success (`true`); when not found, perform no write and report
failure (`false`). -/
def remove_course (code : String) (fs : FileState) : Except ParseError (Bool × FileState) :=
  match load_courses fs with
  | .error e => .error e
  | .ok courses =>
    match find code courses with
    | some _ =>
        .ok (true, .wellFormed (courses.filter (fun course => course.code != code)))
    | none => .ok (false, fs)

/-- The fields of an HTTP form submitted to `POST /add`: `none` models a
field absent from `request.form`, `some s` a field submitted with value `s`. -/
structure Form where
  name : Option String
  code : Option String
  instructor : Option String
  semester : Option String
  schedule : Option String
  classroom : Option String
  prerequisites : Option String
  grading : Option String
  description : Option String
deriving Repr, DecidableEq

/-- Python truthiness of `request.form.get(key)`: `not value` holds exactly
when the field is `None` or the empty string. -/
def falsy : Option String → Bool
  | none => true
  | some s => s == ""

/-- The `missing_fields` list built by `add_course` (src/app.py lines
99-105): one label per required field whose submitted value is falsy, in
the order name, code, instructor. -/
def missing_fields (f : Form) : List String :=
  (if falsy f.name then ["Course Name"] else []) ++
  (if falsy f.code then ["Course Code"] else []) ++
  (if falsy f.instructor then ["Instructor"] else [])

/-- The `course_data` dictionary built by `add_course` (src/app.py lines
118-128): required fields are taken as submitted; optional fields use
`request.form.get(key, default)`, i.e. the default applies only when the
field is absent. -/
def course_data (f : Form) : Course :=
  { name := f.name.getD ""
    code := f.code.getD ""
    instructor := f.instructor.getD ""
    semester := f.semester.getD ""
    schedule := f.schedule.getD ""
    classroom := f.classroom.getD ""
    prerequisites := f.prerequisites.getD "None"
    grading := f.grading.getD "Not specified"
    description := f.description.getD "No description provided" }

/-- Outcome of a `POST /add` request: a validation failure flashing the
missing field labels, or a success flashing the course name. -/
inductive AddOutcome where
  | validationError (missing : List String)
  | success (courseName : String)
deriving Repr, DecidableEq

/-- The `POST` branch of `add_course` (src/app.py lines 90-133): when any
required field is falsy, flash the missing labels and leave the store
untouched; otherwise build `course_data` and save it. -/
def add_course (f : Form) (fs : FileState) : Except ParseError (AddOutcome × FileState) :=
  match missing_fields f with
  | [] =>
    match save_courses (course_data f) fs with
    | .error e => .error e
    | .ok fs' => .ok (.success (course_data f).name, fs')
  | ms => .ok (.validationError ms, fs)

end Catalog

namespace Catalog

instance {ε α : Type} [DecidableEq ε] [DecidableEq α] : DecidableEq (Except ε α)
  | .error e, .error e' =>
      if h : e = e' then .isTrue (by rw [h]) else .isFalse (by intro hc; cases hc; exact h rfl)
  | .error _, .ok _ => .isFalse (by intro hc; cases hc)
  | .ok _, .error _ => .isFalse (by intro hc; cases hc)
  | .ok a, .ok a' =>
      if h : a = a' then .isTrue (by rw [h]) else .isFalse (by intro hc; cases hc; exact h rfl)

def sampleA : Course :=
  { name := "Algorithms", code := "CS101", instructor := "Dr. A",
    semester := "", schedule := "", classroom := "",
    prerequisites := "None", grading := "Not specified",
    description := "No description provided" }

def sampleB : Course :=
  { name := "Databases", code := "CS101", instructor := "Dr. B",
    semester := "", schedule := "", classroom := "",
    prerequisites := "None", grading := "Not specified",
    description := "No description provided" }

/-- A fully valid form that omits every optional field. -/
def formNew : Form :=
  { name := some "Operating Systems", code := some "CS201", instructor := some "Dr. C",
    semester := none, schedule := none, classroom := none,
    prerequisites := none, grading := none, description := none }

/-- A form with an empty `name`, `code = "CS101"` and `instructor = "Dr. X"`. -/
def formMissingName : Form :=
  { name := some "", code := some "CS101", instructor := some "Dr. X",
    semester := none, schedule := none, classroom := none,
    prerequisites := none, grading := none, description := none }

/-- A form whose `name` is a whitespace-only string. -/
def formWhitespaceName : Form :=
  { name := some " ", code := some "CS101", instructor := some "Dr. X",
    semester := none, schedule := none, classroom := none,
    prerequisites := none, grading := none, description := none }

/-- A valid form that submits `prerequisites`, `grading` and `description`
present but empty. -/
def formEmptyOptional : Form :=
  { name := some "Networks", code := some "CS301", instructor := some "Dr. D",
    semester := none, schedule := none, classroom := none,
    prerequisites := some "", grading := some "", description := some "" }

lemma find_eq_none_iff (code : String) (cs : List Course) :
    find code cs = none ↔ ∀ c ∈ cs, c.code ≠ code := by
  simp [find, List.find?_eq_none]

lemma find_mem_split (code : String) :
    ∀ (cs : List Course) (c : Course), find code cs = some c →
      c.code = code ∧ ∃ l₁ l₂, cs = l₁ ++ c :: l₂ ∧ ∀ x ∈ l₁, x.code ≠ code := by
  intro cs
  induction cs with
  | nil => intro c h; simp [find] at h
  | cons x rest ih =>
    intro c h
    cases hx : (x.code == code) with
    | true =>
      have hxc : x = c := by simpa [find, List.find?_cons, hx] using h
      subst hxc
      exact ⟨by simpa using hx, [], rest, rfl, by simp⟩
    | false =>
      have h' : find code rest = some c := by simpa [find, List.find?_cons, hx] using h
      obtain ⟨hc, l₁, l₂, hsplit, hnone⟩ := ih c h'
      refine ⟨hc, x :: l₁, l₂, by simp [hsplit], ?_⟩
      intro y hy
      rcases List.mem_cons.1 hy with hy | hy
      · subst hy; simpa using hx
      · exact hnone y hy

lemma find_append_of_not_mem (c : Course) (cs : List Course)
    (h : ∀ x ∈ cs, x.code ≠ c.code) : find c.code (cs ++ [c]) = some c := by
  induction cs with
  | nil => simp [find, List.find?_cons]
  | cons x rest ih =>
    have hx : (x.code == c.code) = false := by
      simpa using h x (List.mem_cons_self x rest)
    have ih' := ih (fun y hy => h y (List.mem_cons_of_mem x hy))
    simpa [find, List.find?_cons, hx] using ih'

lemma falsy_eq_false_iff (o : Option String) :
    falsy o = false ↔ ∃ s, o = some s ∧ s ≠ "" := by
  cases o with
  | none => simp [falsy]
  | some s => simp [falsy]

/-- Claim C1: for every prior catalog state (one whose load succeeds) and
every course record built by the add operation, append followed by load
yields the prior sequence extended by the record, whose last element is the
appended record, and every optional field the caller omitted carries its
declared default. -/
theorem claim_C1 (fs : FileState) (cs : List Course) (f : Form)
    (hload : load_courses fs = .ok cs) :
    ∃ fs', save_courses (course_data f) fs = .ok fs' ∧
      load_courses fs' = .ok (cs ++ [course_data f]) ∧
      (cs ++ [course_data f]).getLast? = some (course_data f) ∧
      (f.semester = none → (course_data f).semester = "") ∧
      (f.schedule = none → (course_data f).schedule = "") ∧
      (f.classroom = none → (course_data f).classroom = "") ∧
      (f.prerequisites = none → (course_data f).prerequisites = "None") ∧
      (f.grading = none → (course_data f).grading = "Not specified") ∧
      (f.description = none → (course_data f).description = "No description provided") := by
  refine ⟨.wellFormed (cs ++ [course_data f]), ?_, rfl, ?_, ?_, ?_, ?_, ?_, ?_, ?_⟩
  · simp [save_courses, hload]
  · simp
  all_goals intro h; simp [course_data, h]

theorem claim_C1_witness :
    ∃ fs', save_courses (course_data formNew) (.wellFormed [sampleA]) = .ok fs' ∧
      load_courses fs' = .ok ([sampleA] ++ [course_data formNew]) ∧
      ([sampleA] ++ [course_data formNew]).getLast? = some (course_data formNew) ∧
      (formNew.semester = none → (course_data formNew).semester = "") ∧
      (formNew.schedule = none → (course_data formNew).schedule = "") ∧
      (formNew.classroom = none → (course_data formNew).classroom = "") ∧
      (formNew.prerequisites = none → (course_data formNew).prerequisites = "None") ∧
      (formNew.grading = none → (course_data formNew).grading = "Not specified") ∧
      (formNew.description = none →
        (course_data formNew).description = "No description provided") :=
  claim_C1 (.wellFormed [sampleA]) [sampleA] formNew rfl

/-- Claim C2: whenever at least one stored record's code matches, remove
deletes ALL records with that code (the result is the filter keeping only
the other codes, so no surviving record carries the argument code) and
reports success. -/
theorem claim_C2 (fs : FileState) (cs : List Course) (code : String)
    (hload : load_courses fs = .ok cs) (hmatch : ∃ c ∈ cs, c.code = code) :
    remove_course code fs =
      .ok (true, .wellFormed (cs.filter (fun c => c.code != code))) ∧
    ∀ c ∈ cs.filter (fun c => c.code != code), c.code ≠ code := by
  constructor
  · cases hfind : find code cs with
    | none =>
      exfalso
      obtain ⟨c, hc, hcode⟩ := hmatch
      exact (find_eq_none_iff code cs).1 hfind c hc hcode
    | some c => simp [remove_course, hload, hfind]
  · intro c hc
    have := (List.mem_filter.1 hc).2
    simpa using this

theorem claim_C2_witness :
    (remove_course "CS101" (.wellFormed [sampleA, sampleB]) =
      .ok (true, .wellFormed ([sampleA, sampleB].filter (fun c => c.code != "CS101"))) ∧
    ∀ c ∈ [sampleA, sampleB].filter (fun c => c.code != "CS101"), c.code ≠ "CS101") ∧
    [sampleA, sampleB].filter (fun c => c.code != "CS101") = [] :=
  ⟨claim_C2 (.wellFormed [sampleA, sampleB]) [sampleA, sampleB] "CS101" rfl
    ⟨sampleA, by decide, rfl⟩, by decide⟩

/-- Claim C3, counterexample to its final clause: with a record of code
"CS101" already stored, appending a second record with the same code
succeeds, but the detail lookup for "CS101" still returns the OLD record,
not the appended one. -/
theorem claim_C3_counterexample :
    save_courses sampleB (.wellFormed [sampleA]) = .ok (.wellFormed [sampleA, sampleB]) ∧
    sampleB.code = "CS101" ∧
    course_details "CS101" (.wellFormed [sampleA, sampleB]) = .ok (some sampleA) ∧
    sampleA ≠ sampleB := by decide

/-- Claim C3, amended: find returns the FIRST stored record whose code
matches (none when no record matches), and after appending a record whose
code matches NO pre-existing record, looking that code up returns the
appended record. -/
theorem claim_C3 (cs : List Course) (code : String) :
    (find code cs = none ↔ ∀ x ∈ cs, x.code ≠ code) ∧
    (∀ c, find code cs = some c →
      c.code = code ∧ ∃ l₁ l₂, cs = l₁ ++ c :: l₂ ∧ ∀ x ∈ l₁, x.code ≠ code) ∧
    (∀ c : Course, (∀ x ∈ cs, x.code ≠ c.code) →
      save_courses c (.wellFormed cs) = .ok (.wellFormed (cs ++ [c])) ∧
      course_details c.code (.wellFormed (cs ++ [c])) = .ok (some c)) := by
  refine ⟨find_eq_none_iff code cs, fun c h => find_mem_split code cs c h,
    fun c h => ⟨rfl, ?_⟩⟩
  simp [course_details, load_courses, find_append_of_not_mem c cs h]

theorem claim_C3_witness :
    save_courses sampleA (.wellFormed []) = .ok (.wellFormed ([] ++ [sampleA])) ∧
    course_details sampleA.code (.wellFormed ([] ++ [sampleA])) = .ok (some sampleA) :=
  (claim_C3 [] "CS101").2.2 sampleA (by simp)

/-- Claim C4: removing a code that matches no stored record reports failure
(`false`) and returns the file state unchanged — no write is performed. -/
theorem claim_C4 (fs : FileState) (cs : List Course) (code : String)
    (hload : load_courses fs = .ok cs) (h : ∀ c ∈ cs, c.code ≠ code) :
    remove_course code fs = .ok (false, fs) := by
  have hfind : find code cs = none := (find_eq_none_iff code cs).2 h
  simp [remove_course, hload, hfind]

theorem claim_C4_witness :
    remove_course "CS999" (.wellFormed [sampleA]) = .ok (false, .wellFormed [sampleA]) :=
  claim_C4 (.wellFormed [sampleA]) [sampleA] "CS999" rfl (by decide)

/-- Claim C5: load on a missing file returns the empty sequence without
failing, and on an existing well-formed file returns exactly its contents. -/
theorem claim_C5 :
    load_courses .absent = .ok [] ∧
    ∀ cs, load_courses (.wellFormed cs) = .ok cs :=
  ⟨rfl, fun _ => rfl⟩

/-- Claim C6: when any required field is missing, one single validation
outcome reports the whole list of missing labels — the list contains
"Course Name" exactly when `name` is missing, likewise for the other two —
the handler redirects, and the file state is returned unchanged. -/
theorem claim_C6 (f : Form) (fs : FileState) (h : missing_fields f ≠ []) :
    add_course f fs = .ok (.validationError (missing_fields f), fs) ∧
    ("Course Name" ∈ missing_fields f ↔ falsy f.name = true) ∧
    ("Course Code" ∈ missing_fields f ↔ falsy f.code = true) ∧
    ("Instructor" ∈ missing_fields f ↔ falsy f.instructor = true) := by
  constructor
  · cases hm : missing_fields f with
    | nil => exact absurd hm h
    | cons a as => simp [add_course, hm]
  · cases hn : falsy f.name <;> cases hc : falsy f.code <;>
      cases hi : falsy f.instructor <;>
      simp [missing_fields, hn, hc, hi]

theorem claim_C6_witness :
    (add_course formMissingName (.wellFormed [sampleA]) =
      .ok (.validationError (missing_fields formMissingName), .wellFormed [sampleA]) ∧
    ("Course Name" ∈ missing_fields formMissingName ↔ falsy formMissingName.name = true) ∧
    ("Course Code" ∈ missing_fields formMissingName ↔ falsy formMissingName.code = true) ∧
    ("Instructor" ∈ missing_fields formMissingName ↔
      falsy formMissingName.instructor = true)) ∧
    missing_fields formMissingName = ["Course Name"] :=
  ⟨claim_C6 formMissingName (.wellFormed [sampleA]) (by decide), rfl⟩

/-- Claim C7, counterexample: the code performs NO whitespace trimming — a
whitespace-only `name` passes validation and the course is saved with the
whitespace-only name. -/
theorem claim_C7_counterexample :
    missing_fields formWhitespaceName = [] ∧
    add_course formWhitespaceName .absent =
      .ok (.success " ", .wellFormed [course_data formWhitespaceName]) ∧
    (course_data formWhitespaceName).name = " " := by decide

/-- Claim C7, amended: a required field counts as present exactly when it
is submitted as a non-empty string, with NO whitespace trimming — so a
whitespace-only value counts as present and does not trigger a validation
failure. -/
theorem claim_C7 (f : Form) :
    missing_fields f = [] ↔
      (∃ s, f.name = some s ∧ s ≠ "") ∧
      (∃ s, f.code = some s ∧ s ≠ "") ∧
      (∃ s, f.instructor = some s ∧ s ≠ "") := by
  have h1 : missing_fields f = [] ↔
      falsy f.name = false ∧ falsy f.code = false ∧ falsy f.instructor = false := by
    cases hn : falsy f.name <;> cases hc : falsy f.code <;>
      cases hi : falsy f.instructor <;>
      simp [missing_fields, hn, hc, hi]
  rw [h1, falsy_eq_false_iff, falsy_eq_false_iff, falsy_eq_false_iff]

/-- Claim C8: on a malformed persisted file, load fails with the parse
error, and every operation built on load — append, the detail lookup,
remove, and a validated add — propagates that same failure rather than
degrading gracefully. -/
theorem claim_C8 :
    load_courses .malformed = .error .parseError ∧
    (∀ c, save_courses c .malformed = .error .parseError) ∧
    (∀ code, course_details code .malformed = .error .parseError) ∧
    (∀ code, remove_course code .malformed = .error .parseError) ∧
    (∀ f, missing_fields f = [] → add_course f .malformed = .error .parseError) := by
  refine ⟨rfl, fun c => rfl, fun code => rfl, fun code => rfl, fun f hf => ?_⟩
  simp [add_course, hf, save_courses, load_courses]

theorem claim_C8_witness :
    add_course formNew .malformed = .error .parseError :=
  claim_C8.2.2.2.2 formNew rfl

/-- Claim C9: append leaves every pre-existing record unchanged in value
and relative order — the resulting stored sequence is exactly the prior
sequence followed by the new record. -/
theorem claim_C9 (fs : FileState) (cs : List Course) (c : Course)
    (hload : load_courses fs = .ok cs) :
    save_courses c fs = .ok (.wellFormed (cs ++ [c])) := by
  simp [save_courses, hload]

theorem claim_C9_witness :
    save_courses sampleB (.wellFormed [sampleA]) = .ok (.wellFormed ([sampleA] ++ [sampleB])) :=
  claim_C9 (.wellFormed [sampleA]) [sampleA] sampleB rfl

/-- Claim C10: an optional field submitted present-but-empty is stored as
the empty string — the record keeps whatever string was submitted — and the
documented defaults for prerequisites, grading and description apply only
when the field is entirely absent from the form data; a validated add
stores exactly that record. -/
theorem claim_C10 (f : Form) :
    (∀ s, f.prerequisites = some s → (course_data f).prerequisites = s) ∧
    (∀ s, f.grading = some s → (course_data f).grading = s) ∧
    (∀ s, f.description = some s → (course_data f).description = s) ∧
    (f.prerequisites = none → (course_data f).prerequisites = "None") ∧
    (f.grading = none → (course_data f).grading = "Not specified") ∧
    (f.description = none → (course_data f).description = "No description provided") ∧
    (∀ fs cs, missing_fields f = [] → load_courses fs = .ok cs →
      add_course f fs = .ok (.success (course_data f).name, .wellFormed (cs ++ [course_data f]))) := by
  refine ⟨fun s h => ?_, fun s h => ?_, fun s h => ?_, fun h => ?_, fun h => ?_,
    fun h => ?_, fun fs cs hm hl => ?_⟩
  · simp [course_data, h]
  · simp [course_data, h]
  · simp [course_data, h]
  · simp [course_data, h]
  · simp [course_data, h]
  · simp [course_data, h]
  · simp [add_course, hm, save_courses, hl]

theorem claim_C10_witness :
    (course_data formEmptyOptional).prerequisites = "" ∧
    (course_data formEmptyOptional).grading = "" ∧
    (course_data formEmptyOptional).description = "" ∧
    add_course formEmptyOptional .absent =
      .ok (.success (course_data formEmptyOptional).name,
        .wellFormed ([] ++ [course_data formEmptyOptional])) :=
  ⟨(claim_C10 formEmptyOptional).1 "" rfl,
    (claim_C10 formEmptyOptional).2.1 "" rfl,
    (claim_C10 formEmptyOptional).2.2.1 "" rfl,
    (claim_C10 formEmptyOptional).2.2.2.2.2.2 .absent [] rfl rfl⟩

end Catalog
